import Mathlib

/-
  Verification of the WebCodec video helper of the cwptest repository.

  Shallow embedding of src/video-asset/webcodec-helper.js and of
  disposeVideoAsset from the video-asset demo page driver.
  JS numbers that hold integral values (timestamps, indices, counts) are
  modelled as Int or Nat; JS arrays as List; the per-timestamp Map as an
  association list with unique keys; JS object identity of decode-queue
  entries (needed because the source removes entries with indexOf, which
  compares references) as an id field assigned from a per-asset counter.
-/

namespace CwpVideo

/-- Math.round (num / den) for integers, den positive: round half toward
positive infinity, exactly what the source computes on exact values.
Models the float expression Math.round((cts / timescale) * 1e6). -/
def jsRound (num den : Int) : Int :=
  Int.fdiv (2 * num + den) (2 * den)

/-- One coded sample as normalised by the onSamples handler of
webcodec-helper.js: composition/decode timestamps, keyframe flag, payload
(opaque id standing for the raw bytes) and optional duration. -/
structure Sample where
  cts : Option Int
  dts : Option Int
  is_sync : Bool
  duration : Option Int
  data : Nat
deriving DecidableEq, Repr

/-- getCompositionTimestamp (webcodec-helper.js): cts if present, else dts,
else null. -/
def getCompositionTimestamp (s : Sample) : Option Int :=
  match s.cts with
  | some c => some c
  | none => s.dts

/-- convertTimestampToMicros (webcodec-helper.js): scale a finite
composition timestamp to microseconds, else derive from the decode index
and the frame duration 1e6/fps (0 when fps is falsy). -/
def convertTimestampToMicros (compositionTimestamp : Option Int)
    (timescale : Int) (decodeIndex : Nat) (fps : Int) : Int :=
  match compositionTimestamp with
  | some c => jsRound (c * 1000000) timescale
  | none =>
      let frameDurationMicros := if fps ≠ 0 then jsRound 1000000 fps else 0
      (decodeIndex : Int) * frameDurationMicros

inductive CopyMethod where
  | direct
  | canvas
deriving DecidableEq, Repr

inductive DecState where
  | unconfigured
  | configured
  | closed
deriving DecidableEq, Repr

/-- One entry of asset.decodeQueue as pushed by feedBatch. The id field
models JS object identity (the source removes a matched entry from the
flat queue with indexOf, i.e. reference equality). -/
structure QueueEntry where
  id : Nat
  sampleIndex : Nat
  frameIndex : Option Nat
  deliver : Bool
  timestamp : Int
deriving DecidableEq, Repr

inductive ChunkType where
  | key
  | delta
deriving DecidableEq, Repr

/-- The EncodedVideoChunk init built by feedBatch for one sample. -/
structure Chunk where
  type : ChunkType
  timestamp : Int
  data : Nat
  duration : Option Int
deriving DecidableEq, Repr

/-- The per-timestamp multimap asset.decodeQueueByTimestamp: a JS Map from
timestamp to the array of queue entries submitted with that timestamp.
Modelled as an association list with unique keys in insertion order. -/
abbrev TMap := List (Int × List QueueEntry)

def tmGet (m : TMap) (k : Int) : Option (List QueueEntry) :=
  (m.find? (fun p => p.1 == k)).map (fun p => p.2)

def tmSet (m : TMap) (k : Int) (v : List QueueEntry) : TMap :=
  if m.any (fun p => p.1 == k) then
    m.map (fun p => if p.1 == k then (k, v) else p)
  else
    m ++ [(k, v)]

def tmDelete (m : TMap) (k : Int) : TMap :=
  m.filter (fun p => p.1 != k)

/-- The per-asset state registered in window._videoAssets, restricted to
the fields the modelled operations read or write. closureFrameIndex is the
frameIndex variable captured by the loader closure. The float field
frameDuration of the source is never read by the modelled operations and
is omitted. -/
structure Asset where
  ptr : Option Nat
  hasDecoder : Bool
  decoderState : DecState
  width : Nat
  height : Nat
  timescale : Int
  fps : Int
  totalFrames : Nat
  initialPrefillFrames : Nat
  isInitialPrefill : Bool
  currentPrefillIndex : Nat
  samples : Option (List Sample)
  isFetching : Bool
  frameBytes : Nat
  canvas : Bool
  canvasCleanup : Bool
  pendingPrefetch : Option (Int × Int)
  prefillRequested : Bool
  decodeQueue : List QueueEntry
  decodeQueueByTimestamp : TMap
  frameToDecode : List Nat
  decodeToFrame : List (Option Nat)
  frameTimestamps : List Int
  currentFetchRange : Option (Int × Int)
  nextEntryId : Nat
  closureFrameIndex : Nat
  useStrideSize : Bool
  copyMethod : Option CopyMethod
deriving DecidableEq, Repr

/-- An entry of the timeline array built by updatePresentationTimeline:
(decodeIndex, timestampMicros). -/
def TimelineEntry := Nat × Int

/-- The comparator passed to timeline.sort: ascending timestampMicros with
decodeIndex as tie break. As a relation: a precedes-or-equals b. -/
def timelineLE (a b : Nat × Int) : Prop :=
  a.2 < b.2 ∨ (a.2 = b.2 ∧ a.1 ≤ b.1)

instance : DecidableRel timelineLE := by
  intro a b
  unfold timelineLE
  infer_instance

/-- The unsorted timeline of updatePresentationTimeline: one entry per
sample with its decode index and resolved microsecond timestamp. -/
def mkTimeline (samples : List Sample) (timescale fps : Int) :
    List (Nat × Int) :=
  samples.enum.map (fun p =>
    (p.1, convertTimestampToMicros (getCompositionTimestamp p.2) timescale p.1 fps))

structure Timeline where
  frameToDecode : List Nat
  decodeToFrame : List (Option Nat)
  frameTimestamps : List Int
deriving DecidableEq, Repr

/-- The timeline after the sort call: ascending (timestampMicros,
decodeIndex). The JS comparator is antisymmetric and total on the
timeline (decode indices are distinct), so every comparison sort yields
this same list; insertion sort is used as the model of Array.sort. -/
def sortedTimeline (samples : List Sample) (timescale fps : Int) :
    List (Nat × Int) :=
  List.insertionSort timelineLE (mkTimeline samples timescale fps)

/-- One write of the forEach loop filling decodeToFrame:
decodeToFrame[entry.decodeIndex] = frameIndex, where the pair p is
(frameIndex, entry). -/
def dtfUpd (acc : List (Option Nat)) (p : Nat × (Nat × Int)) : List (Option Nat) :=
  acc.set p.2.1 (some p.1)

/-- decodeToFrame as built by updatePresentationTimeline: an array of
timeline.length slots, written at position entry.decodeIndex for each
(frameIndex, entry) of the enumerated sorted timeline. -/
def buildDecodeToFrame (sorted : List (Nat × Int)) : List (Option Nat) :=
  sorted.enum.foldl dtfUpd (List.replicate sorted.length (none : Option Nat))

/-- updatePresentationTimeline (webcodec-helper.js): sort the samples by
(timestampMicros, decodeIndex) and derive the two lookup tables plus the
timestamp array. -/
def updatePresentationTimeline (samples : List Sample) (timescale fps : Int) :
    Timeline :=
  if samples.isEmpty then
    ⟨[], [], []⟩
  else
    ⟨(sortedTimeline samples timescale fps).map Prod.fst,
      buildDecodeToFrame (sortedTimeline samples timescale fps),
      (sortedTimeline samples timescale fps).map Prod.snd⟩

/-- JS array indexing with a possibly negative index: arr[i] is undefined
for i < 0 or i past the end. -/
def lookupFtd (ftd : List Nat) (i : Int) : Option Nat :=
  if 0 ≤ i then ftd[i.toNat]? else none

/-- The list of integers lo, lo+1, ..., hi (empty when hi < lo); models the
JS loops for (let frame = lo; frame <= hi; frame++). -/
def intRange (lo hi : Int) : List Int :=
  if hi < lo then []
  else (List.range (hi - lo + 1).toNat).map (fun k : Nat => lo + (k : Int))

/-- hasFramesForRange (webcodec-helper.js). count is an Int, hence always
finite; the Number.isFinite guard of the source collapses into the
count <= 0 test. -/
def hasFramesForRange (asset : Asset) (start count : Int) : Bool :=
  if count ≤ 0 then
    false
  else if asset.frameToDecode.length = 0 then
    false
  else
    let endFrame := start + count - 1
    if (asset.frameToDecode.length : Int) ≤ endFrame then
      false
    else
      (intRange start endFrame).all (fun frame => (lookupFtd asset.frameToDecode frame).isSome)

/-- sample[i] has a truthy is_sync flag. -/
def isSyncAt (samples : List Sample) (i : Nat) : Bool :=
  match samples[i]? with
  | some s => s.is_sync
  | none => false

/-- The backward keyframe scan of feedBatch: walk i from minDecodeIndex
down to 0 and stop at the first sample whose is_sync flag is set; if none
is found keyframeIndex keeps its initial value minDecodeIndex. -/
def findKeyframe (samples : List Sample) (minDecodeIndex : Nat) : Nat :=
  match (List.range (minDecodeIndex + 1)).reverse.find? (isSyncAt samples) with
  | some i => i
  | none => minDecodeIndex

/-- Result of one feedBatch invocation. submitted carries the chunks
passed to decoder.decode and the queue entries pushed, in order. -/
inductive FeedResult where
  | overlapSuppressed
  | unavailable
  | pendingRetry (flushed : Bool)
  | submitted (chunks : List Chunk) (entries : List QueueEntry)
deriving DecidableEq, Repr

def FeedResult.submits : FeedResult → Bool
  | .submitted _ _ => true
  | _ => false

def FeedResult.entries : FeedResult → List QueueEntry
  | .submitted _ es => es
  | _ => []

/-- Push one entry into the per-timestamp map: append to the existing
bucket, else create a one-element bucket (feedBatch lines handling
decodeQueueByTimestamp). -/
def tmPush (m : TMap) (k : Int) (e : QueueEntry) : TMap :=
  match tmGet m k with
  | some existing => tmSet m k (existing ++ [e])
  | none => tmSet m k [e]

/-- Minimum of a sample-index list, as Math.min(...decodeIndices) over a
nonempty list (0 for the empty list, which feedBatch never passes). -/
def listMin : List Nat → Nat
  | [] => 0
  | x :: xs => xs.foldl Nat.min x

def listMax : List Nat → Nat
  | [] => 0
  | x :: xs => xs.foldl Nat.max x

/-- The submission loop of feedBatch over the decode indices from the
resolved keyframe up to maxDecodeIndex: skip missing samples, otherwise
build the queue entry and the chunk for each sample in decode order.
The source reads sample.timestampMicros, which onSamples and
updatePresentationTimeline both stamp with exactly
convertTimestampToMicros(getCompositionTimestamp(sample), timescale,
index, fps); the model recomputes that value in place. -/
def submitLoop (samples : List Sample) (dtf : List (Option Nat))
    (timescale fps : Int) (framesToDeliver : List Int) :
    List Nat → Nat → List QueueEntry × List Chunk × Nat
  | [], nextId => ([], [], nextId)
  | i :: rest, nextId =>
      match samples[i]? with
      | none => submitLoop samples dtf timescale fps framesToDeliver rest nextId
      | some s =>
          let frameIndex : Option Nat := (dtf[i]?).join
          let timestampMicros :=
            convertTimestampToMicros (getCompositionTimestamp s) timescale i fps
          let deliver :=
            match frameIndex with
            | some f => framesToDeliver.contains ((f : Nat) : Int)
            | none => false
          let entry : QueueEntry := ⟨nextId, i, frameIndex, deliver, timestampMicros⟩
          let chunk : Chunk :=
            ⟨if s.is_sync then .key else .delta, timestampMicros, s.data,
              s.duration.map (fun d => jsRound (d * 1000000) timescale)⟩
          let res := submitLoop samples dtf timescale fps framesToDeliver rest (nextId + 1)
          (entry :: res.1, chunk :: res.2.1, res.2.2)

/-- The presentation frames of one request, clipped to the timeline:
start .. min(start+count, frameToDecode.length) - 1. -/
def requestFrames (asset : Asset) (start count : Int) : List Int :=
  intRange start (min (start + count) (asset.frameToDecode.length : Int) - 1)

/-- The decode indices resolved for the requested frames (frames whose
table slot is still null are skipped, as in the collection loop of
feedBatch). -/
def requestDecodeIndices (asset : Asset) (start count : Int) : List Nat :=
  (requestFrames asset start count).filterMap (fun f => lookupFtd asset.frameToDecode f)

/-- feedBatch (webcodec-helper.js), one synchronous invocation on a
registered asset. The asynchronous parts (the 16 ms retry timer and the
100 ms clearing of currentFetchRange) are represented by the result
constructors; a pendingRetry result means a retry was scheduled, and a
submitted result leaves currentFetchRange set, to be cleared later. -/
def feedBatch (asset : Asset) (start count : Int) : FeedResult × Asset :=
  let overlapping : Bool :=
    match asset.currentFetchRange with
    | some (fetchStart, fetchEnd) =>
        let requestEnd := start + count - 1
        !(requestEnd < fetchStart || start > fetchEnd)
    | none => false
  if overlapping then
    (.overlapSuppressed, asset)
  else if ¬asset.hasDecoder ∨ asset.samples.isNone ∨ asset.frameToDecode.length = 0 then
    (.unavailable, asset)
  else if ¬hasFramesForRange asset start count then
    let isNew := asset.pendingPrefetch ≠ some (start, count)
    (.pendingRetry isNew, { asset with pendingPrefetch := some (start, count) })
  else
    let samples := asset.samples.getD []
    let requestEndFrameExclusive :=
      min (start + count) (asset.frameToDecode.length : Int)
    let framesToDeliver :=
      (requestFrames asset start count).filter
        (fun f => (lookupFtd asset.frameToDecode f).isSome)
    let decodeIndicesForRequest := requestDecodeIndices asset start count
    if decodeIndicesForRequest.isEmpty then
      (.pendingRetry false, { asset with pendingPrefetch := some (start, count) })
    else
      let minDecodeIndex := listMin decodeIndicesForRequest
      let maxDecodeIndex := listMax decodeIndicesForRequest
      let keyframeIndex := findKeyframe samples minDecodeIndex
      let decodeEndExclusive := min (maxDecodeIndex + 1) samples.length
      let res :=
        submitLoop samples asset.decodeToFrame asset.timescale asset.fps
          framesToDeliver
          (List.range' keyframeIndex (decodeEndExclusive - keyframeIndex))
          asset.nextEntryId
      let entries := res.1
      let chunks := res.2.1
      let asset' :=
        { asset with
            pendingPrefetch := none
            currentFetchRange := some (start, requestEndFrameExclusive - 1)
            decodeQueue := asset.decodeQueue ++ entries
            decodeQueueByTimestamp :=
              entries.foldl (fun m e => tmPush m e.timestamp e)
                asset.decodeQueueByTimestamp
            nextEntryId := res.2.2 }
      (.submitted chunks entries, asset')

/-- Remove the first entry with the given identity from a list, leaving
the list unchanged when no such entry exists: models
list.indexOf(entry) followed by splice(idx, 1) on reference equality. -/
def removeFirstById : List QueueEntry → Nat → List QueueEntry
  | [], _ => []
  | e :: rest, i => if e.id = i then rest else e :: removeFirstById rest i

/-- The bucket cleanup performed when the flat-queue head is popped:
remove the entry from the bucket of its own timestamp, deleting the key
when the bucket becomes empty; no bucket, no change. -/
def removeFromBucket (m : TMap) (ts : Int) (i : Nat) : TMap :=
  match tmGet m ts with
  | some entries =>
      let entries' := removeFirstById entries i
      if entries'.isEmpty then tmDelete m ts else tmSet m ts entries'
  | none => m

/-- The queue-entry matching logic at the top of the decoderOutput
callback (webcodec-helper.js): first a FIFO pop from the per-timestamp
bucket (removing the entry from the bucket and from the flat queue),
else a FIFO pop of the flat queue head (removing it from its bucket,
deleting the bucket key when it becomes empty), else no entry. -/
def matchQueueEntry (q : List QueueEntry) (m : TMap) (ts : Int) :
    Option QueueEntry × List QueueEntry × TMap :=
  match tmGet m ts with
  | some (e :: rest) =>
      let m' := if rest.isEmpty then tmDelete m ts else tmSet m ts rest
      (some e, removeFirstById q e.id, m')
  | _ =>
      match q with
      | [] => (none, q, m)
      | e :: qrest => (some e, qrest, removeFromBucket m e.timestamp e.id)

/-- The copy-strategy block of decoderOutput: returns
(copySucceeded, new copyMethod, canvas fallback invoked). A cached
canvas method goes straight to the fallback; otherwise the direct
copyTo is tried, caching direct on first success; on a copyTo failure
the method is set to canvas only when none was cached yet, and the
canvas fallback is attempted either way. -/
def copyPhase (method : Option CopyMethod) (directOk canvasOk : Bool) :
    Bool × Option CopyMethod × Bool :=
  match method with
  | some .canvas => (canvasOk, some .canvas, true)
  | m =>
      if directOk then
        (true, (if m = none then some .direct else m), false)
      else
        let m' := if m = none then some .canvas else m
        (canvasOk, m', true)

structure Rect where
  x : Int
  y : Int
  w : Int
  h : Int
deriving DecidableEq, Repr

/-- The fields of the decoded VideoFrame read by decoderOutput. A zero
display or coded dimension models a falsy (absent) value. -/
structure FrameDesc where
  timestamp : Int
  displayWidth : Nat
  displayHeight : Nat
  codedWidth : Nat
  codedHeight : Nat
  visibleRect : Option Rect
deriving DecidableEq, Repr

/-- Values captured by the decoderOutput closure from the load scope. -/
structure ClosureCtx where
  codedWidth : Nat
  codedHeight : Nat
  surfacePresent : Bool
  playing : Bool
deriving DecidableEq, Repr

/-- Nondeterministic platform outcomes of one decoderOutput run:
whether frame.allocationSize throws and the size it returns otherwise,
whether the direct copyTo succeeds, whether the canvas fallback
succeeds, and the address a reallocation would return. -/
structure CopyEnv where
  allocThrows : Bool
  allocSize : Nat
  directCopyOk : Bool
  canvasCopyOk : Bool
  newPtr : Nat
deriving DecidableEq, Repr

/-- Observable effects of one decoderOutput run, in program order. -/
inductive Ev where
  | close
  | deliver (frameIndex ptr w h : Nat)
  | render
  | canvasAttempt
  | freeBuf
  | allocBuf (bytes : Nat)
  | warnNoMetadata
  | warnAllocFailed
  | errorCopyFailed
deriving DecidableEq, Repr

/-- The visible-rectangle sizing of decoderOutput: fall back from the
display size through the coded size to the track size, default the
visible rectangle to the full frame, and clamp each output dimension
to at least 1 pixel. The rectangle clamping of the source only affects
the copy origin, not the delivered dimensions, and the origin is
absorbed into the copy outcome of CopyEnv. -/
def frameDims (ctx : ClosureCtx) (frame : FrameDesc) : Nat × Nat :=
  let defaultWidth :=
    if frame.displayWidth ≠ 0 then frame.displayWidth
    else if frame.codedWidth ≠ 0 then frame.codedWidth
    else ctx.codedWidth
  let defaultHeight :=
    if frame.displayHeight ≠ 0 then frame.displayHeight
    else if frame.codedHeight ≠ 0 then frame.codedHeight
    else ctx.codedHeight
  let visibleRect :=
    frame.visibleRect.getD ⟨0, 0, (defaultWidth : Int), (defaultHeight : Int)⟩
  (max 1 visibleRect.w.toNat, max 1 visibleRect.h.toNat)

/-- The required-bytes computation of decoderOutput: stride-based when
the asset is already in stride mode, stride-based with a warning and a
permanent switch to stride mode when frame.allocationSize throws, else
the value frame.allocationSize returned. -/
def sizedStep (asset : Asset) (env : CopyEnv) (stride frameHeight : Nat) :
    Nat × Asset × List Ev :=
  if asset.useStrideSize then
    (stride * frameHeight, asset, [])
  else if env.allocThrows then
    (stride * frameHeight, { asset with useStrideSize := true }, [Ev.warnAllocFailed])
  else
    (env.allocSize, asset, [])

/-- The buffer management of decoderOutput: when no buffer is allocated
or the current one is too small, zero-and-free the old buffer and
allocate a fresh one of the required size. -/
def reallocStep (asset : Asset) (env : CopyEnv) (requiredBytes : Nat) :
    Asset × List Ev :=
  if asset.ptr.isNone ∨ asset.frameBytes < requiredBytes then
    ({ asset with ptr := some env.newPtr, frameBytes := requiredBytes },
      (match asset.ptr with
       | some _ => [Ev.freeBuf]
       | none => []) ++ [Ev.allocBuf requiredBytes])
  else
    (asset, [])

/-- The copy-failure cleanup of decoderOutput: zero, free and null the
buffer when one is allocated. -/
def cleanupStep (asset : Asset) : Asset × List Ev :=
  match asset.ptr with
  | some _ => ({ asset with ptr := none, frameBytes := 0 }, [Ev.freeBuf])
  | none => (asset, [])

/-- The tail of decoderOutput from the prefill check onward: sizing,
buffer management, the copy, delivery or cleanup, and the single
frame.close() on the way out. pre holds events already emitted by the
matching phase. -/
def decoderOutputDeliver (asset : Asset) (ctx : ClosureCtx) (frame : FrameDesc)
    (env : CopyEnv) (targetFrameIndex : Nat) (pre : List Ev) :
    Option Asset × List Ev :=
  if asset.isInitialPrefill ∧ asset.currentPrefillIndex ≥ asset.initialPrefillFrames then
    (some asset, pre ++ [Ev.close])
  else
    let frameWidth : Nat := (frameDims ctx frame).1
    let frameHeight : Nat := (frameDims ctx frame).2
    let stride := frameWidth * 4
    let sized := sizedStep asset env stride frameHeight
    let requiredBytes := sized.1
    let asset1 := sized.2.1
    let evSize := sized.2.2
    let realloced := reallocStep asset1 env requiredBytes
    let asset2 := realloced.1
    let evRealloc := realloced.2
    let cp := copyPhase asset2.copyMethod env.directCopyOk env.canvasCopyOk
    let copySucceeded := cp.1
    let asset3 := { asset2 with copyMethod := cp.2.1 }
    let evCanvas := if cp.2.2 then [Ev.canvasAttempt] else []
    if copySucceeded then
      let asset4 :=
        { asset3 with width := frameWidth, height := frameHeight, frameBytes := requiredBytes }
      let evDeliver := [Ev.deliver targetFrameIndex (asset4.ptr.getD 0) frameWidth frameHeight]
      let evRender := if ctx.surfacePresent ∧ ¬ctx.playing then [Ev.render] else []
      let asset5 :=
        if asset4.isInitialPrefill then
          { asset4 with currentPrefillIndex := asset4.currentPrefillIndex + 1 }
        else asset4
      (some asset5,
        pre ++ evSize ++ evRealloc ++ evCanvas ++ evDeliver ++ evRender ++ [Ev.close])
    else
      let cleaned := cleanupStep asset3
      (some cleaned.1,
        pre ++ evSize ++ evRealloc ++ evCanvas ++ [Ev.errorCopyFailed] ++ cleaned.2 ++ [Ev.close])

/-- The queue bookkeeping of one decoderOutput call: run the matcher on
the decoder timestamp and store the shrunk queue and map back on the
asset. -/
def matchPhase (asset : Asset) (ts : Int) : Option QueueEntry × Asset :=
  let matched := matchQueueEntry asset.decodeQueue asset.decodeQueueByTimestamp ts
  (matched.1,
    { asset with decodeQueue := matched.2.1, decodeQueueByTimestamp := matched.2.2 })

/-- The frame-index bookkeeping after a successful match: advance the
closure frameIndex past the matched index. -/
def bumpFrameIndex (asset : Asset) (targetFrameIndex : Nat) : Asset :=
  { asset with closureFrameIndex := max asset.closureFrameIndex (targetFrameIndex + 1) }

/-- decoderOutput (webcodec-helper.js): the full VideoDecoder output
callback for one decoded frame. A missing asset closes the frame and
returns; a matched non-deliverable entry closes the frame and returns;
otherwise the delivery tail runs. Queue entries are always the objects
pushed by feedBatch, so the numeric-entry branch of the source is not
reachable and not modelled. -/
def decoderOutput (assetOpt : Option Asset) (ctx : ClosureCtx)
    (frame : FrameDesc) (env : CopyEnv) : Option Asset × List Ev :=
  match assetOpt with
  | none => (none, [Ev.close])
  | some asset0 =>
      let mp := matchPhase asset0 frame.timestamp
      let asset1 := mp.2
      match mp.1 with
      | some e =>
          let targetFrameIndex := e.frameIndex.getD e.sampleIndex
          let asset2 := bumpFrameIndex asset1 targetFrameIndex
          if e.deliver = false then
            (some asset2, [Ev.close])
          else
            decoderOutputDeliver asset2 ctx frame env targetFrameIndex []
      | none =>
          let targetFrameIndex := asset1.closureFrameIndex
          let asset2 := { asset1 with closureFrameIndex := asset1.closureFrameIndex + 1 }
          decoderOutputDeliver asset2 ctx frame env targetFrameIndex [Ev.warnNoMetadata]

/-- State of the preparation promise returned by loadWebCodecVideoAsset.
A settled promise ignores later resolve and reject calls. -/
inductive PromiseState where
  | pending
  | resolvedState
  | rejected (msg : String)
deriving DecidableEq, Repr

def rejectPromise (p : PromiseState) (msg : String) : PromiseState :=
  match p with
  | .pending => .rejected msg
  | other => other

/-- The metadata of one container track read by the onReady handler. -/
structure TrackInfo where
  isVideo : Bool
  codedWidth : Nat
  codedHeight : Nat
  timescale : Int
  avgFrameRate : Option Int
  nbSamples : Nat
deriving DecidableEq, Repr

/-- The registry slot for one asset id together with the preparation
promise: the state the load callbacks mutate. -/
structure LoadState where
  asset : Option Asset
  promise : PromiseState
deriving DecidableEq, Repr

/-- The asset object registered by onReady (webcodec-helper.js),
field for field. -/
def initialAsset (t : TrackInfo) (fps : Int) (ptr0 : Nat) : Asset :=
  let frameBytes := t.codedWidth * t.codedHeight * 4
  let maxFrames := (96 * 1024 * 1024) / (t.codedWidth * t.codedHeight * 4)
  { ptr := some ptr0
    hasDecoder := true
    decoderState := .configured
    width := t.codedWidth
    height := t.codedHeight
    timescale := t.timescale
    fps := fps
    totalFrames := t.nbSamples
    initialPrefillFrames := min 10 maxFrames
    isInitialPrefill := true
    currentPrefillIndex := 0
    samples := none
    isFetching := false
    frameBytes := frameBytes
    canvas := false
    canvasCleanup := false
    pendingPrefetch := none
    prefillRequested := false
    decodeQueue := []
    decodeQueueByTimestamp := []
    frameToDecode := []
    decodeToFrame := []
    frameTimestamps := []
    currentFetchRange := none
    nextEntryId := 0
    closureFrameIndex := 0
    useStrideSize := false
    copyMethod := none }

/-- The mp4box onReady handler (webcodec-helper.js): reject when no
video track exists, before anything is registered; otherwise configure
a decoder and register the asset. The fps fallback chain of the source
collapses to avgFrameRate with default 30. decoder.configure is
fire-and-forget in the source; a configuration failure surfaces later
through the decoder error callback (decoderErrorStep). -/
def onReadyStep (tracks : List TrackInfo) (ptr0 : Nat) (st : LoadState) : LoadState :=
  match tracks.find? (fun t => t.isVideo) with
  | none => { st with promise := rejectPromise st.promise "No video track found." }
  | some t =>
      let fps := t.avgFrameRate.getD 30
      { st with asset := some (initialAsset t fps ptr0) }

/-- The mp4box onError handler: reject the preparation promise with a
prefixed message; the registry is not touched. -/
def onErrorStep (e : String) (st : LoadState) : LoadState :=
  { st with promise := rejectPromise st.promise ("MP4Box error: " ++ e) }

/-- The VideoDecoder error callback installed at construction: reject
the preparation promise with a prefixed message; the registry is not
touched. -/
def decoderErrorStep (e : String) (st : LoadState) : LoadState :=
  { st with promise := rejectPromise st.promise ("VideoDecoder error: " ++ e) }

/-- True closing of a VideoDecoder: throws InvalidStateError when the
decoder is already closed, else moves it to the closed state. -/
def closeDecoder (s : DecState) : Except String DecState :=
  if s = .closed then .error "InvalidStateError" else .ok .closed

inductive DispEv where
  | closeDec
  | warnCloseFailed
  | zeroBuf
  | freeBuf
  | canvasCleanupRun
  | warnCanvasCleanupFailed
deriving DecidableEq, Repr

/-- Result of one disposeVideoAsset call: the registry slot afterwards,
the final state of the decoder of the disposed asset (none when there
was no asset), whether an exception escaped the call, and the effects
performed. -/
structure DisposeOutcome where
  registry : Option Asset
  decoderFinal : Option DecState
  threw : Bool
  events : List DispEv
deriving DecidableEq, Repr

/-- disposeVideoAsset (video-asset demo driver): a no-op without a
registered asset; otherwise close the decoder unless it is already
closed (a close failure is caught and logged), zero and free the pixel
buffer when present, run the fallback-canvas cleanup when present
(failures caught), reset the fields and delete the registry entry. -/
def disposeVideoAsset (registry : Option Asset) : DisposeOutcome :=
  match registry with
  | none => ⟨none, none, false, []⟩
  | some asset =>
      let closed : DecState × List DispEv :=
        if asset.decoderState ≠ .closed then
          match closeDecoder asset.decoderState with
          | .ok s => (s, [DispEv.closeDec])
          | .error _ => (asset.decoderState, [DispEv.warnCloseFailed])
        else
          (asset.decoderState, [])
      let bufEvents : List DispEv :=
        match asset.ptr with
        | some _ => [DispEv.zeroBuf, DispEv.freeBuf]
        | none => []
      let canvasEvents : List DispEv :=
        if asset.canvasCleanup then [DispEv.canvasCleanupRun] else []
      ⟨none, some closed.1, false, closed.2 ++ bufEvents ++ canvasEvents⟩

/-- An asset as it stands after onSamples has delivered the full sample
list and updatePresentationTimeline has run, outside the initial
prefill, with nothing queued and no fetch in flight. -/
def mkReadyAsset (samples : List Sample) (timescale fps : Int) : Asset :=
  { ptr := some 1000
    hasDecoder := true
    decoderState := .configured
    width := 64
    height := 48
    timescale := timescale
    fps := fps
    totalFrames := samples.length
    initialPrefillFrames := 10
    isInitialPrefill := false
    currentPrefillIndex := 10
    samples := some samples
    isFetching := false
    frameBytes := 12288
    canvas := false
    canvasCleanup := false
    pendingPrefetch := none
    prefillRequested := true
    decodeQueue := []
    decodeQueueByTimestamp := []
    frameToDecode := (updatePresentationTimeline samples timescale fps).frameToDecode
    decodeToFrame := (updatePresentationTimeline samples timescale fps).decodeToFrame
    frameTimestamps := (updatePresentationTimeline samples timescale fps).frameTimestamps
    currentFetchRange := none
    nextEntryId := 0
    closureFrameIndex := 0
    useStrideSize := false
    copyMethod := none }

/-- The container of the end-to-end scenario of the specification: 300
samples at 30 fps (timescale 30, one tick per sample), a keyframe every
30 samples, timestamps in decode order. -/
def demoSamples : List Sample :=
  (List.range 300).map (fun (i : Nat) =>
    { cts := some (i : Int), dts := some (i : Int), is_sync := decide (i % 30 = 0),
      duration := some 1, data := i })

def demoAsset : Asset := mkReadyAsset demoSamples 30 30

/-- demoAsset with an overlapping fetch range already marked in flight. -/
def demoBusyAsset : Asset := { demoAsset with currentFetchRange := some (0, 299) }

/-- A two-sample stream with no keyframe at all. -/
def noKeySamples : List Sample :=
  [{ cts := some 0, dts := some 0, is_sync := false, duration := some 1, data := 0 },
   { cts := some 1, dts := some 1, is_sync := false, duration := some 1, data := 1 }]

def noKeyAsset : Asset := mkReadyAsset noKeySamples 30 30

/-- A two-sample stream whose presentation order is the reverse of its
decode order (the second sample carries the earlier timestamp). -/
def reorderSamples : List Sample :=
  [{ cts := some 100, dts := some 0, is_sync := true, duration := some 50, data := 0 },
   { cts := some 0, dts := some 50, is_sync := false, duration := some 50, data := 1 }]

/-- A well-formed video track as reported by the demuxer onReady info. -/
def vtrack : TrackInfo :=
  { isVideo := true, codedWidth := 64, codedHeight := 48, timescale := 30,
    avgFrameRate := some 30, nbSamples := 300 }

/-- Two queue entries sharing the decoder timestamp 42. -/
def dupE1 : QueueEntry := ⟨1, 10, some 10, true, 42⟩

def dupE2 : QueueEntry := ⟨2, 11, some 11, true, 42⟩

/-- Two deliverable queue entries with distinct timestamps, queued on an
otherwise idle asset, used to drive two decoder outputs in a row. -/
def c6Entry1 : QueueEntry := ⟨0, 0, some 0, true, 0⟩

def c6Entry2 : QueueEntry := ⟨1, 1, some 1, true, 33333⟩

def c6Asset : Asset :=
  { mkReadyAsset noKeySamples 30 30 with
      decodeQueue := [c6Entry1, c6Entry2],
      decodeQueueByTimestamp := [(0, [c6Entry1]), (33333, [c6Entry2])] }

def stdCtx : ClosureCtx :=
  { codedWidth := 64, codedHeight := 48, surfacePresent := false, playing := false }

def mkFrame (ts : Int) : FrameDesc :=
  { timestamp := ts, displayWidth := 64, displayHeight := 48,
    codedWidth := 64, codedHeight := 48, visibleRect := none }

/-- A platform where everything succeeds. -/
def okEnv : CopyEnv :=
  { allocThrows := false, allocSize := 12288, directCopyOk := true,
    canvasCopyOk := true, newPtr := 2000 }

/-- A platform where the direct copyTo throws but the canvas fallback
works. -/
def directFailEnv : CopyEnv :=
  { allocThrows := false, allocSize := 12288, directCopyOk := false,
    canvasCopyOk := true, newPtr := 2000 }

/-- c6Asset with the fast path already probed and cached. -/
def c6DirectAsset : Asset := { c6Asset with copyMethod := some CopyMethod.direct }

lemma mkTimeline_map_fst (samples : List Sample) (timescale fps : Int) :
    (mkTimeline samples timescale fps).map Prod.fst = List.range samples.length := by
  unfold mkTimeline
  rw [List.map_map]
  have h : (Prod.fst ∘ fun p : Nat × Sample =>
      (p.1, convertTimestampToMicros (getCompositionTimestamp p.2) timescale p.1 fps)) =
      Prod.fst := by
    funext p
    rfl
  rw [h, List.enum_map_fst]

lemma mkTimeline_length (samples : List Sample) (timescale fps : Int) :
    (mkTimeline samples timescale fps).length = samples.length := by
  unfold mkTimeline
  simp

lemma sortedTimeline_perm (samples : List Sample) (timescale fps : Int) :
    List.Perm (sortedTimeline samples timescale fps) (mkTimeline samples timescale fps) :=
  List.perm_insertionSort timelineLE _

lemma sortedTimeline_length (samples : List Sample) (timescale fps : Int) :
    (sortedTimeline samples timescale fps).length = samples.length := by
  rw [(sortedTimeline_perm samples timescale fps).length_eq, mkTimeline_length]

lemma sortedTimeline_map_fst_perm (samples : List Sample) (timescale fps : Int) :
    List.Perm ((sortedTimeline samples timescale fps).map Prod.fst)
      (List.range samples.length) := by
  have h := (sortedTimeline_perm samples timescale fps).map Prod.fst
  rwa [mkTimeline_map_fst] at h

lemma sortedTimeline_map_fst_nodup (samples : List Sample) (timescale fps : Int) :
    ((sortedTimeline samples timescale fps).map Prod.fst).Nodup :=
  (sortedTimeline_map_fst_perm samples timescale fps).nodup_iff.mpr
    (List.nodup_range samples.length)

lemma sortedTimeline_fst_lt (samples : List Sample) (timescale fps : Int) :
    ∀ x ∈ sortedTimeline samples timescale fps, x.1 < samples.length := by
  intro x hx
  have hm : x.1 ∈ (sortedTimeline samples timescale fps).map Prod.fst :=
    List.mem_map_of_mem Prod.fst hx
  rw [(sortedTimeline_map_fst_perm samples timescale fps).mem_iff, List.mem_range] at hm
  exact hm

lemma dtfFold_length (l : List (Nat × Int)) :
    ∀ (k : Nat) (init : List (Option Nat)),
      ((List.enumFrom k l).foldl dtfUpd init).length = init.length := by
  induction l with
  | nil => intro k init; rfl
  | cons x xs ih =>
      intro k init
      show ((List.enumFrom (k + 1) xs).foldl dtfUpd (dtfUpd init (k, x))).length = init.length
      rw [ih (k + 1) (dtfUpd init (k, x))]
      simp [dtfUpd]

lemma dtfFold_notMem (l : List (Nat × Int)) :
    ∀ (k : Nat) (init : List (Option Nat)) (d : Nat), d ∉ l.map Prod.fst →
      ((List.enumFrom k l).foldl dtfUpd init)[d]? = init[d]? := by
  induction l with
  | nil => intro k init d _; rfl
  | cons x xs ih =>
      intro k init d hd
      simp only [List.map_cons, List.mem_cons, not_or] at hd
      show ((List.enumFrom (k + 1) xs).foldl dtfUpd (dtfUpd init (k, x)))[d]? = init[d]?
      rw [ih (k + 1) (dtfUpd init (k, x)) d hd.2]
      exact List.getElem?_set_ne (Ne.symm hd.1)

lemma dtfFold_get (l : List (Nat × Int)) :
    ∀ (k : Nat) (init : List (Option Nat)), (l.map Prod.fst).Nodup →
      (∀ x ∈ l, x.1 < init.length) →
      ∀ i (h : i < l.length),
        ((List.enumFrom k l).foldl dtfUpd init)[(l[i].1)]? = some (some (k + i)) := by
  induction l with
  | nil => intro k init _ _ i h; exact absurd h (by simp)
  | cons x xs ih =>
      intro k init hnd hlt i h
      simp only [List.map_cons, List.nodup_cons] at hnd
      match i with
      | 0 =>
          show ((List.enumFrom (k + 1) xs).foldl dtfUpd (dtfUpd init (k, x)))[x.1]? =
            some (some (k + 0))
          rw [dtfFold_notMem xs (k + 1) (dtfUpd init (k, x)) x.1 hnd.1]
          show (init.set x.1 (some k))[x.1]? = some (some (k + 0))
          rw [List.getElem?_set_eq_of_lt (some k)
            (hlt x (List.mem_cons_self x xs))]
          rfl
      | i + 1 =>
          have hilt : i < xs.length := by simpa using h
          have hk : k + (i + 1) = (k + 1) + i := by omega
          rw [hk]
          have hxs : (x :: xs)[i + 1] = xs[i] := by
            simp
          rw [hxs]
          show ((List.enumFrom (k + 1) xs).foldl dtfUpd (dtfUpd init (k, x)))[(xs[i]).1]? =
            some (some ((k + 1) + i))
          exact ih (k + 1) (dtfUpd init (k, x)) hnd.2
            (by
              intro y hy
              have : (dtfUpd init (k, x)).length = init.length := by simp [dtfUpd]
              rw [this]
              exact hlt y (List.mem_cons_of_mem x hy))
            i (by simpa using h)

lemma buildDecodeToFrame_get (samples : List Sample) (timescale fps : Int)
    (f : Nat) (hf : f < (sortedTimeline samples timescale fps).length) :
    (buildDecodeToFrame (sortedTimeline samples timescale fps))[((sortedTimeline samples timescale fps)[f]).1]? =
      some (some f) := by
  unfold buildDecodeToFrame
  have h := dtfFold_get (sortedTimeline samples timescale fps) 0
    (List.replicate (sortedTimeline samples timescale fps).length (none : Option Nat))
    (sortedTimeline_map_fst_nodup samples timescale fps)
    (by
      intro x hx
      rw [List.length_replicate]
      rw [sortedTimeline_length]
      exact sortedTimeline_fst_lt samples timescale fps x hx)
    f hf
  rw [Nat.zero_add] at h
  exact h

/-- C1: the two tables built by updatePresentationTimeline form a
bijection between presentation frame indices and decode indices:
decodeToFrame[frameToDecode[f]] = f for every presentation frame f, and
every decode index 0..n-1 is mapped by exactly one presentation frame. -/
theorem timeline_bijection (samples : List Sample) (timescale fps : Int) :
    (∀ f, f < samples.length →
      ∃ d, (updatePresentationTimeline samples timescale fps).frameToDecode[f]? = some d ∧
        (updatePresentationTimeline samples timescale fps).decodeToFrame[d]? = some (some f)) ∧
    (∀ d, d < samples.length →
      ∃ f, f < samples.length ∧
        (updatePresentationTimeline samples timescale fps).frameToDecode[f]? = some d ∧
        (updatePresentationTimeline samples timescale fps).decodeToFrame[d]? = some (some f) ∧
        ∀ f', f' < samples.length →
          (updatePresentationTimeline samples timescale fps).frameToDecode[f']? = some d →
            f' = f) := by
  cases hsam : samples.isEmpty with
  | true =>
      have : samples = [] := List.isEmpty_iff.mp hsam
      subst this
      exact ⟨fun f hf => absurd hf (by simp), fun d hd => absurd hd (by simp)⟩
  | false =>
      have hT : updatePresentationTimeline samples timescale fps =
          ⟨(sortedTimeline samples timescale fps).map Prod.fst,
            buildDecodeToFrame (sortedTimeline samples timescale fps),
            (sortedTimeline samples timescale fps).map Prod.snd⟩ := by
        unfold updatePresentationTimeline
        rw [hsam]
        rfl
      rw [hT]
      have hlen := sortedTimeline_length samples timescale fps
      constructor
      · intro f hf
        have hf' : f < (sortedTimeline samples timescale fps).length := by omega
        refine ⟨((sortedTimeline samples timescale fps)[f]).1, ?_, ?_⟩
        · show ((sortedTimeline samples timescale fps).map Prod.fst)[f]? = _
          rw [List.getElem?_map, List.getElem?_eq_getElem hf']
          rfl
        · exact buildDecodeToFrame_get samples timescale fps f hf'
      · intro d hd
        have hm : d ∈ (sortedTimeline samples timescale fps).map Prod.fst :=
          (sortedTimeline_map_fst_perm samples timescale fps).mem_iff.mpr
            (List.mem_range.mpr hd)
        obtain ⟨f, hfl, hfe⟩ := List.getElem_of_mem hm
        have hf' : f < (sortedTimeline samples timescale fps).length := by
          simpa using hfl
        have hfe' : ((sortedTimeline samples timescale fps)[f]).1 = d := by
          rw [← hfe]
          simp
        refine ⟨f, by omega, ?_, ?_, ?_⟩
        · show ((sortedTimeline samples timescale fps).map Prod.fst)[f]? = _
          rw [List.getElem?_map, List.getElem?_eq_getElem hf']
          simpa using hfe'
        · rw [← hfe']
          exact buildDecodeToFrame_get samples timescale fps f hf'
        · intro f' hf'lt he
          have hf'' : f' < (sortedTimeline samples timescale fps).length := by omega
          have he' : ((sortedTimeline samples timescale fps)[f']).1 = d := by
            rw [List.getElem?_map, List.getElem?_eq_getElem hf''] at he
            simpa using he
          have hfl2 : f' < ((sortedTimeline samples timescale fps).map Prod.fst).length := by
            simpa using hf''
          have hmapeq : ((sortedTimeline samples timescale fps).map Prod.fst)[f'] =
              ((sortedTimeline samples timescale fps).map Prod.fst)[f] := by
            rw [List.getElem_map, List.getElem_map, he', hfe']
          exact (sortedTimeline_map_fst_nodup samples timescale fps).getElem_inj_iff.mp hmapeq

theorem timeline_bijection_witness :
    (0 : Nat) < reorderSamples.length ∧
    ∃ d, (updatePresentationTimeline reorderSamples 1000 30).frameToDecode[0]? = some d ∧
      (updatePresentationTimeline reorderSamples 1000 30).decodeToFrame[d]? = some (some 0) :=
  ⟨by decide, (timeline_bijection reorderSamples 1000 30).1 0 (by decide)⟩

/-- C2 (amended): the keyframe index found by the backward scan of
feedBatch is at or before minDecodeIndex, and the sample at that index
is either a true keyframe (is_sync) or the scan found no keyframe at or
before minDecodeIndex and fell back to minDecodeIndex itself. -/
theorem keyframe_scan_bound (samples : List Sample) (minDecodeIndex : Nat) :
    findKeyframe samples minDecodeIndex ≤ minDecodeIndex ∧
    (isSyncAt samples (findKeyframe samples minDecodeIndex) = true ∨
      findKeyframe samples minDecodeIndex = minDecodeIndex) := by
  unfold findKeyframe
  cases hf : (List.range (minDecodeIndex + 1)).reverse.find? (isSyncAt samples) with
  | none => exact ⟨Nat.le_refl _, Or.inr rfl⟩
  | some i =>
      have hmem : i ∈ (List.range (minDecodeIndex + 1)).reverse :=
        List.mem_of_find?_eq_some hf
      rw [List.mem_reverse, List.mem_range] at hmem
      constructor
      · show i ≤ minDecodeIndex
        omega
      · left
        show isSyncAt samples i = true
        exact List.find?_some hf

/-- C2 (counterexample): in a stream whose samples carry no keyframe
flag at all, the backward scan for the request of frame 1 lands on
decode index 1 — the minDecodeIndex fallback — which is neither a true
keyframe nor the first sample of the stream; feedBatch then submits
exactly that sample. -/
theorem keyframe_scan_counterexample :
    findKeyframe noKeySamples 1 = 1 ∧
    isSyncAt noKeySamples 1 = false ∧
    (1 : Nat) ≠ 0 ∧
    ((feedBatch noKeyAsset 1 1).1.entries).map (fun e => e.sampleIndex) = [1] := by
  decide

/-- C7 (counterexample): feedBatch called on a freshly registered asset,
before any onSamples batch has arrived, finds the timeline empty — so
the requested range is certainly not covered — yet it returns through
the decoder-or-samples-unavailable warning path: nothing is submitted,
but no pending request is recorded and no retry is scheduled. -/
theorem readiness_gate_counterexample :
    hasFramesForRange (initialAsset vtrack 30 500) 0 10 = false ∧
    feedBatch (initialAsset vtrack 30 500) 0 10 =
      (FeedResult.unavailable, initialAsset vtrack 30 500) ∧
    ((feedBatch (initialAsset vtrack 30 500) 0 10).2).pendingPrefetch = none := by
  decide

/-- C7 (amended): when the asset has a decoder, a sample list and a
non-empty timeline, and no fetch range is marked in flight, a feedBatch
call whose requested range is not yet fully resolved submits nothing,
records the request as pending, and schedules the 16 ms retry; the
demuxer flush nudge happens exactly when the pending request is newly
recorded. -/
theorem readiness_gate_retry (asset : Asset) (start count : Int)
    (hdec : asset.hasDecoder = true)
    (hsam : asset.samples.isNone = false)
    (hlen : asset.frameToDecode.length ≠ 0)
    (hnf : asset.currentFetchRange = none)
    (hcov : hasFramesForRange asset start count = false) :
    feedBatch asset start count =
      (FeedResult.pendingRetry (decide (asset.pendingPrefetch ≠ some (start, count))),
        { asset with pendingPrefetch := some (start, count) }) := by
  unfold feedBatch
  rw [hnf, hdec]
  simp only [hsam, hcov]
  simp [hlen]

theorem readiness_gate_retry_witness :
    (noKeyAsset.hasDecoder = true ∧ noKeyAsset.samples.isNone = false ∧
      noKeyAsset.frameToDecode.length ≠ 0 ∧ noKeyAsset.currentFetchRange = none ∧
      hasFramesForRange noKeyAsset 0 10 = false) ∧
    feedBatch noKeyAsset 0 10 =
      (FeedResult.pendingRetry (decide (noKeyAsset.pendingPrefetch ≠ some (0, 10))),
        { noKeyAsset with pendingPrefetch := some (0, 10) }) :=
  ⟨⟨by decide, by decide, by decide, by decide, by decide⟩,
    readiness_gate_retry noKeyAsset 0 10 (by decide) (by decide) (by decide) rfl
      (by decide)⟩

/-- C9: disposal never lets an exception escape, always leaves the
registry slot empty, is a strict no-op when called again or with no
asset registered, closes the decoder of the disposed asset (skipping
the close call — hence raising nothing — when it is already closed),
and frees the pixel buffer exactly when one was allocated. -/
theorem dispose_idempotent (reg : Option Asset) :
    (disposeVideoAsset reg).threw = false ∧
    (disposeVideoAsset reg).registry = none ∧
    disposeVideoAsset (disposeVideoAsset reg).registry = ⟨none, none, false, []⟩ ∧
    (disposeVideoAsset reg).decoderFinal = reg.map (fun _ => DecState.closed) ∧
    ((disposeVideoAsset reg).events.contains DispEv.freeBuf) =
      (reg.map (fun a => a.ptr.isSome)).getD false ∧
    ((disposeVideoAsset reg).events.contains DispEv.closeDec) =
      (reg.map (fun a => decide (a.decoderState ≠ DecState.closed))).getD false ∧
    ((disposeVideoAsset reg).events.contains DispEv.warnCloseFailed) = false := by
  cases reg with
  | none => exact ⟨rfl, rfl, rfl, rfl, rfl, rfl, rfl⟩
  | some a =>
      by_cases hs : a.decoderState = DecState.closed <;>
        cases hp : a.ptr <;>
          cases hc : a.canvasCleanup <;>
            simp [disposeVideoAsset, closeDecoder, hs, hp, hc]

/-- C10: a request with nonpositive count is never satisfiable
(hasFramesForRange is false for every asset and start), and feedBatch
with such a count submits nothing to the decoder and leaves the
in-flight fetch range untouched. -/
theorem nonpositive_count_no_submit (asset : Asset) (start count : Int)
    (h : count ≤ 0) :
    hasFramesForRange asset start count = false ∧
    (feedBatch asset start count).1.submits = false ∧
    ((feedBatch asset start count).2).currentFetchRange = asset.currentFetchRange := by
  have h1 : hasFramesForRange asset start count = false := by
    unfold hasFramesForRange
    rw [if_pos h]
  have h2 : (feedBatch asset start count).1.submits = false ∧
      ((feedBatch asset start count).2).currentFetchRange = asset.currentFetchRange := by
    unfold feedBatch
    rcases hr : asset.currentFetchRange with _ | ⟨fs, fe⟩
    · simp only [hr]
      split
      · exact ⟨rfl, hr⟩
      · split
        · exact ⟨rfl, hr⟩
        · split
          · exact ⟨rfl, rfl⟩
          · rename_i hcov
            simp [h1] at hcov
    · simp only [hr]
      split
      · exact ⟨rfl, hr⟩
      · split
        · exact ⟨rfl, hr⟩
        · split
          · exact ⟨rfl, rfl⟩
          · rename_i hcov
            simp [h1] at hcov
  exact ⟨h1, h2.1, h2.2⟩

theorem nonpositive_count_no_submit_witness :
    ((0 : Int) ≤ 0) ∧
    (hasFramesForRange noKeyAsset 5 0 = false ∧
      (feedBatch noKeyAsset 5 0).1.submits = false ∧
      ((feedBatch noKeyAsset 5 0).2).currentFetchRange = noKeyAsset.currentFetchRange) :=
  ⟨by decide, nonpositive_count_no_submit noKeyAsset 5 0 (by decide)⟩


lemma count_close_deliver (a b c d : Nat) (l : List Ev) :
    (Ev.deliver a b c d :: l).count Ev.close = l.count Ev.close := by
  rw [List.count_cons]
  simp

lemma count_close_allocBuf (n : Nat) (l : List Ev) :
    (Ev.allocBuf n :: l).count Ev.close = l.count Ev.close := by
  rw [List.count_cons]
  simp

lemma sizedStep_close (asset : Asset) (env : CopyEnv) (stride frameHeight : Nat) :
    ((sizedStep asset env stride frameHeight).2.2).count Ev.close = 0 := by
  unfold sizedStep
  repeat' split
  all_goals rfl

lemma sizedStep_copyMethod (asset : Asset) (env : CopyEnv) (stride frameHeight : Nat) :
    ((sizedStep asset env stride frameHeight).2.1).copyMethod = asset.copyMethod := by
  unfold sizedStep
  repeat' split
  all_goals rfl

lemma reallocStep_close (asset : Asset) (env : CopyEnv) (requiredBytes : Nat) :
    ((reallocStep asset env requiredBytes).2).count Ev.close = 0 := by
  unfold reallocStep
  repeat' split
  all_goals simp [count_close_allocBuf]

lemma reallocStep_copyMethod (asset : Asset) (env : CopyEnv) (requiredBytes : Nat) :
    ((reallocStep asset env requiredBytes).1).copyMethod = asset.copyMethod := by
  unfold reallocStep
  repeat' split
  all_goals rfl

lemma cleanupStep_close (asset : Asset) :
    ((cleanupStep asset).2).count Ev.close = 0 := by
  unfold cleanupStep
  repeat' split
  all_goals rfl

lemma cleanupStep_copyMethod (asset : Asset) :
    ((cleanupStep asset).1).copyMethod = asset.copyMethod := by
  unfold cleanupStep
  repeat' split
  all_goals rfl

lemma copyPhase_keeps (mm : CopyMethod) (d c : Bool) :
    (copyPhase (some mm) d c).2.1 = some mm := by
  cases mm <;> cases d <;> rfl

lemma copyPhase_canvas_cond (m : Option CopyMethod) (d c : Bool) :
    (copyPhase m d c).2.2 = true → m = some CopyMethod.canvas ∨ d = false := by
  cases m with
  | none => cases d <;> simp [copyPhase]
  | some mm => cases mm <;> cases d <;> simp [copyPhase]

lemma sizedStep_no_canvas (asset : Asset) (env : CopyEnv) (st fh : Nat) :
    Ev.canvasAttempt ∉ (sizedStep asset env st fh).2.2 := by
  unfold sizedStep
  repeat' split
  all_goals simp

lemma reallocStep_no_canvas (asset : Asset) (env : CopyEnv) (rb : Nat) :
    Ev.canvasAttempt ∉ (reallocStep asset env rb).2 := by
  unfold reallocStep
  repeat' split
  all_goals simp

lemma cleanupStep_no_canvas (asset : Asset) :
    Ev.canvasAttempt ∉ (cleanupStep asset).2 := by
  unfold cleanupStep
  repeat' split
  all_goals simp

lemma chain_copyMethod (asset : Asset) (env : CopyEnv) (st fh rb : Nat) :
    ((reallocStep ((sizedStep asset env st fh).2.1) env rb).1).copyMethod =
      asset.copyMethod := by
  rw [reallocStep_copyMethod, sizedStep_copyMethod]

lemma matchPhase_copyMethod (a : Asset) (ts : Int) :
    ((matchPhase a ts).2).copyMethod = a.copyMethod := rfl

lemma bumpFrameIndex_copyMethod (a : Asset) (t : Nat) :
    (bumpFrameIndex a t).copyMethod = a.copyMethod := rfl

lemma decoderOutputDeliver_close_count (asset : Asset) (ctx : ClosureCtx)
    (frame : FrameDesc) (env : CopyEnv) (t : Nat) (pre : List Ev) :
    ((decoderOutputDeliver asset ctx frame env t pre).2).count Ev.close =
      pre.count Ev.close + 1 := by
  unfold decoderOutputDeliver
  split
  · simp
  · split
    all_goals
      simp only [List.count_append, sizedStep_close, reallocStep_close, cleanupStep_close]
    all_goals repeat' split
    all_goals
      simp [List.count_append, List.count_cons, List.count_nil, count_close_deliver,
        sizedStep_close, reallocStep_close, cleanupStep_close]

lemma decoderOutputDeliver_copyMethod (asset : Asset) (ctx : ClosureCtx)
    (frame : FrameDesc) (env : CopyEnv) (t : Nat) (pre : List Ev) (mm : CopyMethod)
    (hm : asset.copyMethod = some mm) :
    ((decoderOutputDeliver asset ctx frame env t pre).1.map (fun a => a.copyMethod)) =
      some (some mm) := by
  unfold decoderOutputDeliver
  split
  · simp [hm]
  · dsimp only
    generalize hS : sizedStep asset env ((frameDims ctx frame).1 * 4) (frameDims ctx frame).2 = S
    generalize hR : reallocStep S.2.1 env S.1 = R
    have hRm : R.1.copyMethod = some mm := by
      rw [← hR, reallocStep_copyMethod, ← hS, sizedStep_copyMethod, hm]
    rw [hRm]
    split
    · split
      all_goals simp [copyPhase_keeps]
    · simp [cleanupStep_copyMethod, copyPhase_keeps]

lemma decoderOutputDeliver_canvas (asset : Asset) (ctx : ClosureCtx)
    (frame : FrameDesc) (env : CopyEnv) (t : Nat) (pre : List Ev) (mm : CopyMethod)
    (hm : asset.copyMethod = some mm)
    (hmem : Ev.canvasAttempt ∈ (decoderOutputDeliver asset ctx frame env t pre).2) :
    Ev.canvasAttempt ∈ pre ∨ mm = CopyMethod.canvas ∨ env.directCopyOk = false := by
  unfold decoderOutputDeliver at hmem
  split at hmem
  · simp at hmem
    exact Or.inl hmem
  · dsimp only at hmem
    rw [show (reallocStep ((sizedStep asset env ((frameDims ctx frame).1 * 4)
          (frameDims ctx frame).2).2.1) env
          ((sizedStep asset env ((frameDims ctx frame).1 * 4)
            (frameDims ctx frame).2).1)).1.copyMethod = some mm from by
        rw [reallocStep_copyMethod, sizedStep_copyMethod, hm]] at hmem
    have hcond := copyPhase_canvas_cond (some mm) env.directCopyOk env.canvasCopyOk
    split at hmem
    · simp only [List.mem_append] at hmem
      rcases hmem with (((((h0 | h1) | h2) | h3) | h4) | h5) | h6
      · exact Or.inl h0
      · exact absurd h1 (sizedStep_no_canvas _ _ _ _)
      · exact absurd h2 (reallocStep_no_canvas _ _ _)
      · rw [List.mem_ite_nil_right] at h3
        rcases hcond h3.1 with hc | hd
        · exact Or.inr (Or.inl (Option.some_inj.mp hc))
        · exact Or.inr (Or.inr hd)
      · simp at h4
      · rcases h5 with h5
        simp only [List.mem_ite_nil_right] at h5
        simp at h5
      · simp at h6
    · simp only [List.mem_append] at hmem
      rcases hmem with (((((h0 | h1) | h2) | h3) | h4) | h5) | h6
      · exact Or.inl h0
      · exact absurd h1 (sizedStep_no_canvas _ _ _ _)
      · exact absurd h2 (reallocStep_no_canvas _ _ _)
      · rw [List.mem_ite_nil_right] at h3
        rcases hcond h3.1 with hc | hd
        · exact Or.inr (Or.inl (Option.some_inj.mp hc))
        · exact Or.inr (Or.inr hd)
      · simp at h4
      · exact absurd h5 (cleanupStep_no_canvas _)
      · simp at h6

lemma decoderOutput_copyMethod_stable (a : Asset) (ctx : ClosureCtx) (frame : FrameDesc)
    (env : CopyEnv) (mm : CopyMethod) (hm : a.copyMethod = some mm) :
    ((decoderOutput (some a) ctx frame env).1.map (fun x => x.copyMethod)) =
      some (some mm) := by
  unfold decoderOutput
  dsimp only
  rcases hq : (matchPhase a frame.timestamp).1 with _ | e
  · dsimp only
    exact decoderOutputDeliver_copyMethod _ _ _ _ _ _ mm hm
  · dsimp only
    split
    · simp [bumpFrameIndex_copyMethod, matchPhase_copyMethod, hm]
    · exact decoderOutputDeliver_copyMethod _ _ _ _ _ _ mm hm

lemma decoderOutput_canvas_cond (a : Asset) (ctx : ClosureCtx) (frame : FrameDesc)
    (env : CopyEnv) (mm : CopyMethod) (hm : a.copyMethod = some mm)
    (hmem : Ev.canvasAttempt ∈ (decoderOutput (some a) ctx frame env).2) :
    mm = CopyMethod.canvas ∨ env.directCopyOk = false := by
  unfold decoderOutput at hmem
  dsimp only at hmem
  rcases hq : (matchPhase a frame.timestamp).1 with _ | e
  · rw [hq] at hmem
    dsimp only at hmem
    rcases decoderOutputDeliver_canvas _ _ _ _ _ _ mm (by exact hm) hmem with h0 | h
    · simp at h0
    · exact h
  · rw [hq] at hmem
    dsimp only at hmem
    split at hmem
    · simp at hmem
    · rcases decoderOutputDeliver_canvas _ _ _ _ _ _ mm (by exact hm) hmem with h0 | h
      · simp at h0
      · exact h

/-- C8: on every exit path of the decoderOutput callback - missing
asset, non-deliverable skip, warm-up drop, successful delivery or copy
failure - the decoded frame object is closed exactly once. -/
theorem frame_closed_exactly_once (assetOpt : Option Asset) (ctx : ClosureCtx)
    (frame : FrameDesc) (env : CopyEnv) :
    ((decoderOutput assetOpt ctx frame env).2).count Ev.close = 1 := by
  cases assetOpt with
  | none => rfl
  | some a =>
      unfold decoderOutput
      dsimp only
      rcases hq : (matchPhase a frame.timestamp).1 with _ | e
      · dsimp only
        rw [decoderOutputDeliver_close_count]
        rfl
      · dsimp only
        split
        · rfl
        · rw [decoderOutputDeliver_close_count]
          rfl

/-- C6 (amended): once a copy method is cached for an asset it never
changes on any later decoder output; but caching the direct method does
not keep the canvas fallback from being invoked - the canvas path runs
exactly when the cached method is canvas or the direct copy of the
current frame fails. -/
theorem copy_method_stability (a : Asset) (ctx : ClosureCtx) (frame : FrameDesc)
    (env : CopyEnv) (mm : CopyMethod) (hm : a.copyMethod = some mm) :
    ((decoderOutput (some a) ctx frame env).1.map (fun x => x.copyMethod)) =
      some (some mm) ∧
    (Ev.canvasAttempt ∈ (decoderOutput (some a) ctx frame env).2 →
      mm = CopyMethod.canvas ∨ env.directCopyOk = false) :=
  ⟨decoderOutput_copyMethod_stable a ctx frame env mm hm,
    fun hmem => decoderOutput_canvas_cond a ctx frame env mm hm hmem⟩

theorem copy_method_stability_witness :
    c6DirectAsset.copyMethod = some CopyMethod.direct ∧
    (((decoderOutput (some c6DirectAsset) stdCtx (mkFrame 0) okEnv).1.map
        (fun x => x.copyMethod)) = some (some CopyMethod.direct) ∧
      (Ev.canvasAttempt ∈ (decoderOutput (some c6DirectAsset) stdCtx (mkFrame 0) okEnv).2 →
        CopyMethod.direct = CopyMethod.canvas ∨ okEnv.directCopyOk = false)) :=
  ⟨rfl, copy_method_stability c6DirectAsset stdCtx (mkFrame 0) okEnv CopyMethod.direct rfl⟩

/-- C6 (counterexample): after the fast path succeeds and caches the
direct method, a later decoder output whose direct copy fails still
invokes the canvas fallback for that asset. -/
theorem copy_method_counterexample :
    (((decoderOutput (some c6Asset) stdCtx (mkFrame 0) okEnv).1).map
        (fun a => a.copyMethod)) = some (some CopyMethod.direct) ∧
    Ev.canvasAttempt ∈
      (decoderOutput ((decoderOutput (some c6Asset) stdCtx (mkFrame 0) okEnv).1)
        stdCtx (mkFrame 33333) directFailEnv).2 := by
  decide

/-- C4: the matcher attributes each decoder output in priority order -
pop the first entry of a non-empty per-timestamp bucket (removing it
from both the bucket and the flat queue), else pop the flat-queue head
(removing it from its own bucket), else no entry (the caller then
synthesizes a sequential index); in the duplicate-timestamp scenario
two outputs with timestamp 42 match the two queued entries in bucket
order. -/
theorem decoder_output_match_priority (q : List QueueEntry) (m : TMap) (ts : Int) :
    (∀ e rest, tmGet m ts = some (e :: rest) →
        matchQueueEntry q m ts =
          (some e, removeFirstById q e.id,
            if rest.isEmpty then tmDelete m ts else tmSet m ts rest)) ∧
    ((∀ e rest, tmGet m ts ≠ some (e :: rest)) →
      ∀ e qrest, q = e :: qrest →
        matchQueueEntry q m ts = (some e, qrest, removeFromBucket m e.timestamp e.id)) ∧
    ((∀ e rest, tmGet m ts ≠ some (e :: rest)) → q = [] →
        matchQueueEntry q m ts = (none, [], m)) ∧
    (matchQueueEntry [dupE1, dupE2] [(42, [dupE1, dupE2])] 42 =
        (some dupE1, [dupE2], [(42, [dupE2])]) ∧
      matchQueueEntry [dupE2] [(42, [dupE2])] 42 = (some dupE2, [], [])) := by
  refine ⟨?_, ?_, ?_, by decide, by decide⟩
  · intro e rest h
    unfold matchQueueEntry
    rw [h]
  · intro hno e qrest hq
    subst hq
    unfold matchQueueEntry
    cases hg : tmGet m ts with
    | none => rfl
    | some l =>
        cases l with
        | nil => rfl
        | cons x xs => exact absurd hg (hno x xs)
  · intro hno hq
    subst hq
    unfold matchQueueEntry
    cases hg : tmGet m ts with
    | none => rfl
    | some l =>
        cases l with
        | nil => rfl
        | cons x xs => exact absurd hg (hno x xs)

theorem decoder_output_match_priority_witness :
    matchQueueEntry [] [((5 : Int), [⟨7, 0, some 0, true, 5⟩])] 5 =
      (some ⟨7, 0, some 0, true, 5⟩, [], []) := by
  have h := (decoder_output_match_priority [] [((5 : Int), [⟨7, 0, some 0, true, 5⟩])] 5).1
    ⟨7, 0, some 0, true, 5⟩ [] (by decide)
  rw [h]
  decide

/-- C5 (amended): a missing video track and a container parse error
reject the preparation promise with a descriptive message before any
asset is registered; a decoder error delivered through the decoder
error callback - the only in-source channel for an asynchronously
reported configuration error - rejects the promise, but the asset entry
registered by onReady stays in the registry until disposal. -/
theorem load_failure_rejection :
    (∀ (tracks : List TrackInfo) (ptr0 : Nat) (st : LoadState),
        tracks.find? (fun t => t.isVideo) = none → st.asset = none →
        st.promise = PromiseState.pending →
        (onReadyStep tracks ptr0 st).promise = PromiseState.rejected "No video track found." ∧
        (onReadyStep tracks ptr0 st).asset = none) ∧
    (∀ (e : String) (st : LoadState), st.asset = none → st.promise = PromiseState.pending →
        (onErrorStep e st).promise = PromiseState.rejected ("MP4Box error: " ++ e) ∧
        (onErrorStep e st).asset = none) ∧
    (∀ (e : String) (tracks : List TrackInfo) (t : TrackInfo) (ptr0 : Nat) (st : LoadState),
        tracks.find? (fun tr => tr.isVideo) = some t → st.promise = PromiseState.pending →
        (decoderErrorStep e (onReadyStep tracks ptr0 st)).promise =
          PromiseState.rejected ("VideoDecoder error: " ++ e) ∧
        ((decoderErrorStep e (onReadyStep tracks ptr0 st)).asset).isSome = true) := by
  refine ⟨?_, ?_, ?_⟩
  · intro tracks ptr0 st hf ha hp
    unfold onReadyStep
    rw [hf]
    constructor
    · show rejectPromise st.promise _ = _
      rw [hp]
      rfl
    · exact ha
  · intro e st ha hp
    unfold onErrorStep
    constructor
    · show rejectPromise st.promise _ = _
      rw [hp]
      rfl
    · exact ha
  · intro e tracks t ptr0 st hf hp
    unfold onReadyStep decoderErrorStep
    rw [hf]
    constructor
    · show rejectPromise st.promise _ = _
      rw [hp]
      rfl
    · rfl

theorem load_failure_rejection_witness :
    (([] : List TrackInfo).find? (fun t => t.isVideo) = none ∧
      (LoadState.mk none PromiseState.pending).asset = none ∧
      (LoadState.mk none PromiseState.pending).promise = PromiseState.pending) ∧
    ((onReadyStep [] 500 ⟨none, PromiseState.pending⟩).promise =
        PromiseState.rejected "No video track found." ∧
      (onReadyStep [] 500 ⟨none, PromiseState.pending⟩).asset = none) :=
  ⟨⟨rfl, rfl, rfl⟩,
    load_failure_rejection.1 [] 500 ⟨none, PromiseState.pending⟩ rfl rfl rfl⟩

/-- C5 (counterexample): a decoder configuration error reported through
the decoder error callback after onReady has run rejects the
preparation promise, yet the asset stays registered - the claim that no
asset is left registered fails on this path. -/
theorem load_failure_counterexample :
    (decoderErrorStep "configuration failed"
        (onReadyStep [vtrack] 500 ⟨none, PromiseState.pending⟩)).promise =
      PromiseState.rejected "VideoDecoder error: configuration failed" ∧
    ((decoderErrorStep "configuration failed"
        (onReadyStep [vtrack] 500 ⟨none, PromiseState.pending⟩)).asset).isSome = true := by
  constructor
  · rfl
  · rfl

lemma foldl_min_le_init (xs : List Nat) : ∀ x : Nat, xs.foldl Nat.min x ≤ x := by
  induction xs with
  | nil => intro x; exact Nat.le_refl x
  | cons a l ih =>
      intro x
      exact Nat.le_trans (ih (Nat.min x a)) (Nat.min_le_left x a)

lemma foldl_min_le_mem (xs : List Nat) :
    ∀ (x y : Nat), y ∈ xs → xs.foldl Nat.min x ≤ y := by
  induction xs with
  | nil => intro x y hy; cases hy
  | cons a l ih =>
      intro x y hy
      rcases List.mem_cons.mp hy with rfl | hy
      · exact Nat.le_trans (foldl_min_le_init l (Nat.min x y)) (Nat.min_le_right x y)
      · exact ih (Nat.min x a) y hy

lemma foldl_min_mem_or (xs : List Nat) :
    ∀ x : Nat, xs.foldl Nat.min x = x ∨ xs.foldl Nat.min x ∈ xs := by
  induction xs with
  | nil => intro x; exact Or.inl rfl
  | cons a l ih =>
      intro x
      rcases ih (Nat.min x a) with h | h
      · rcases Nat.le_total x a with hxa | hxa
        · exact Or.inl (by
            show List.foldl Nat.min (Nat.min x a) l = x
            rw [h, Nat.min_eq_min]
            omega)
        · exact Or.inr (by
            show List.foldl Nat.min (Nat.min x a) l ∈ a :: l
            rw [h, Nat.min_eq_min, show min x a = a from by omega]
            exact List.mem_cons_self a l)
      · exact Or.inr (List.mem_cons_of_mem a h)

lemma foldl_max_ge_init (xs : List Nat) : ∀ x : Nat, x ≤ xs.foldl Nat.max x := by
  induction xs with
  | nil => intro x; exact Nat.le_refl x
  | cons a l ih =>
      intro x
      exact Nat.le_trans (Nat.le_max_left x a) (ih (Nat.max x a))

lemma foldl_max_ge_mem (xs : List Nat) :
    ∀ (x y : Nat), y ∈ xs → y ≤ xs.foldl Nat.max x := by
  induction xs with
  | nil => intro x y hy; cases hy
  | cons a l ih =>
      intro x y hy
      rcases List.mem_cons.mp hy with rfl | hy
      · exact Nat.le_trans (Nat.le_max_right x y) (foldl_max_ge_init l (Nat.max x y))
      · exact ih (Nat.max x a) y hy

lemma foldl_max_mem_or (xs : List Nat) :
    ∀ x : Nat, xs.foldl Nat.max x = x ∨ xs.foldl Nat.max x ∈ xs := by
  induction xs with
  | nil => intro x; exact Or.inl rfl
  | cons a l ih =>
      intro x
      rcases ih (Nat.max x a) with h | h
      · rcases Nat.le_total a x with hxa | hxa
        · exact Or.inl (by
            show List.foldl Nat.max (Nat.max x a) l = x
            rw [h, Nat.max_eq_max]
            omega)
        · exact Or.inr (by
            show List.foldl Nat.max (Nat.max x a) l ∈ a :: l
            rw [h, Nat.max_eq_max, show max x a = a from by omega]
            exact List.mem_cons_self a l)
      · exact Or.inr (List.mem_cons_of_mem a h)

lemma listMin_le (l : List Nat) : ∀ x ∈ l, listMin l ≤ x := by
  intro x hx
  cases l with
  | nil => cases hx
  | cons a xs =>
      rcases List.mem_cons.mp hx with rfl | hx
      · exact foldl_min_le_init xs x
      · exact foldl_min_le_mem xs a x hx

lemma listMax_ge (l : List Nat) : ∀ x ∈ l, x ≤ listMax l := by
  intro x hx
  cases l with
  | nil => cases hx
  | cons a xs =>
      rcases List.mem_cons.mp hx with rfl | hx
      · exact foldl_max_ge_init xs x
      · exact foldl_max_ge_mem xs a x hx

lemma listMin_mem (l : List Nat) (h : l ≠ []) : listMin l ∈ l := by
  cases l with
  | nil => exact absurd rfl h
  | cons a xs =>
      rcases foldl_min_mem_or xs a with he | he
      · rw [listMin, he]
        exact List.mem_cons_self a xs
      · exact List.mem_cons_of_mem a (by rw [listMin]; exact he)

lemma listMax_mem (l : List Nat) (h : l ≠ []) : listMax l ∈ l := by
  cases l with
  | nil => exact absurd rfl h
  | cons a xs =>
      rcases foldl_max_mem_or xs a with he | he
      · rw [listMax, he]
        exact List.mem_cons_self a xs
      · exact List.mem_cons_of_mem a (by rw [listMax]; exact he)

lemma mem_intRange {lo hi x : Int} : x ∈ intRange lo hi ↔ lo ≤ x ∧ x ≤ hi := by
  unfold intRange
  split
  · rename_i hlt
    simp only [List.not_mem_nil, false_iff]
    omega
  · rename_i hge
    constructor
    · intro hx
      obtain ⟨k, hk, he⟩ := List.mem_map.mp hx
      rw [List.mem_range] at hk
      subst he
      have hk' : (k : Int) < ((hi - lo + 1).toNat : Int) := by exact_mod_cast hk
      rw [Int.toNat_of_nonneg (by omega)] at hk'
      omega
    · rintro ⟨h1, h2⟩
      apply List.mem_map.mpr
      refine ⟨(x - lo).toNat, ?_, ?_⟩
      · rw [List.mem_range]
        have e1 : ((x - lo).toNat : Int) = x - lo := Int.toNat_of_nonneg (by omega)
        have e2 : (((hi - lo + 1).toNat : Nat) : Int) = hi - lo + 1 :=
          Int.toNat_of_nonneg (by omega)
        have h3 : ((x - lo).toNat : Int) < (((hi - lo + 1).toNat : Nat) : Int) := by omega
        exact_mod_cast h3
      · have e1 : ((x - lo).toNat : Int) = x - lo := Int.toNat_of_nonneg (by omega)
        omega

lemma lookupFtd_mem (ftd : List Nat) (i : Int) (d : Nat)
    (h : lookupFtd ftd i = some d) : d ∈ ftd := by
  unfold lookupFtd at h
  split at h
  · exact List.getElem?_mem h
  · cases h

lemma lookupFtd_nonneg (ftd : List Nat) (i : Int)
    (h : (lookupFtd ftd i).isSome = true) : 0 ≤ i := by
  unfold lookupFtd at h
  split at h
  · assumption
  · cases h

lemma hasFramesForRange_spec (asset : Asset) (start count : Int)
    (h : hasFramesForRange asset start count = true) :
    0 < count ∧ start + count ≤ (asset.frameToDecode.length : Int) ∧
    ∀ fr ∈ intRange start (start + count - 1),
      (lookupFtd asset.frameToDecode fr).isSome = true := by
  unfold hasFramesForRange at h
  by_cases h1 : count ≤ 0
  · rw [if_pos h1] at h
    cases h
  · rw [if_neg h1] at h
    by_cases h2 : asset.frameToDecode.length = 0
    · rw [if_pos h2] at h
      cases h
    · rw [if_neg h2] at h
      by_cases h3 : (asset.frameToDecode.length : Int) ≤ start + count - 1
      · rw [if_pos h3] at h
        cases h
      · rw [if_neg h3] at h
        exact ⟨by omega, by omega, List.all_eq_true.mp h⟩

lemma updatePresentationTimeline_ftd_lt (samples : List Sample) (timescale fps : Int) :
    ∀ d ∈ (updatePresentationTimeline samples timescale fps).frameToDecode,
      d < samples.length := by
  intro d hd
  cases hsam : samples.isEmpty with
  | true =>
      unfold updatePresentationTimeline at hd
      rw [hsam] at hd
      cases hd
  | false =>
      unfold updatePresentationTimeline at hd
      rw [hsam] at hd
      have hd' : d ∈ (sortedTimeline samples timescale fps).map Prod.fst := hd
      rw [(sortedTimeline_map_fst_perm samples timescale fps).mem_iff,
        List.mem_range] at hd'
      exact hd'

lemma findKeyframe_le (samples : List Sample) (minDecodeIndex : Nat) :
    findKeyframe samples minDecodeIndex ≤ minDecodeIndex := by
  unfold findKeyframe
  cases hf : (List.range (minDecodeIndex + 1)).reverse.find? (isSyncAt samples) with
  | none => exact Nat.le_refl _
  | some i =>
      have hmem : i ∈ (List.range (minDecodeIndex + 1)).reverse :=
        List.mem_of_find?_eq_some hf
      rw [List.mem_reverse, List.mem_range] at hmem
      show i ≤ minDecodeIndex
      omega

lemma submitLoop_spec (samples : List Sample) (dtf : List (Option Nat))
    (timescale fps : Int) (toDeliver : List Int) :
    ∀ (idxs : List Nat) (nextId : Nat), (∀ i ∈ idxs, i < samples.length) →
      ((submitLoop samples dtf timescale fps toDeliver idxs nextId).1.map
        (fun e => e.sampleIndex) = idxs) ∧
      ((submitLoop samples dtf timescale fps toDeliver idxs nextId).2.1.length =
        (submitLoop samples dtf timescale fps toDeliver idxs nextId).1.length) ∧
      (∀ e ∈ (submitLoop samples dtf timescale fps toDeliver idxs nextId).1,
        e.frameIndex = (dtf[e.sampleIndex]?).join ∧
        (e.deliver = true ↔ ∃ f, e.frameIndex = some f ∧ ((f : Nat) : Int) ∈ toDeliver)) := by
  intro idxs
  induction idxs with
  | nil =>
      intro nextId _
      refine ⟨rfl, rfl, ?_⟩
      intro e he
      cases he
  | cons i rest ih =>
      intro nextId hb
      have hi : i < samples.length := hb i (List.mem_cons_self i rest)
      have hs : samples[i]? = some samples[i] := List.getElem?_eq_getElem hi
      have hrest : ∀ j ∈ rest, j < samples.length :=
        fun j hj => hb j (List.mem_cons_of_mem i hj)
      rw [submitLoop, hs]
      dsimp only
      obtain ⟨ih1, ih2, ih3⟩ := ih (nextId + 1) hrest
      refine ⟨?_, ?_, ?_⟩
      · rw [List.map_cons, ih1]
      · simp only [List.length_cons, ih2]
      · intro e he
        rcases List.mem_cons.mp he with rfl | he
        · refine ⟨rfl, ?_⟩
          show (match (dtf[i]?).join with
            | some f => toDeliver.contains ((f : Nat) : Int)
            | none => false) = true ↔ _
          cases hj : (dtf[i]?).join with
          | none => simp
          | some f =>
              constructor
              · intro hmem
                refine ⟨f, rfl, ?_⟩
                simpa using hmem
              · rintro ⟨g, hg, hmem⟩
                cases hg
                simpa using hmem
        · exact ih3 e he
set_option maxHeartbeats 1000000 in
set_option maxRecDepth 100000 in
/-- C3 (amended): for a registered asset whose decoder and sample list
are present, whose timeline tables were built from its samples, with no
overlapping fetch in flight and the requested range covered by the
timeline, feedBatch submits every sample from the resolved keyframe
index through maxDecodeIndex inclusive, in decode order, and among the
queue entries it pushes exactly those whose resolved frame index falls
in [start, start+count) have deliver = true; in particular, for the
300-sample 30 fps stream with keyframes every 30 samples and a request
for frames 45..54, the submitted decode range is [30, 54] and the
delivered frames are exactly 45..54. -/
theorem feed_batch_submission_selectivity (asset : Asset) (samples : List Sample)
    (start count : Int)
    (hsam : asset.samples = some samples)
    (hftd : asset.frameToDecode =
      (updatePresentationTimeline samples asset.timescale asset.fps).frameToDecode)
    (hdec : asset.hasDecoder = true)
    (hnf : asset.currentFetchRange = none)
    (hcov : hasFramesForRange asset start count = true) :
    (∃ chunks entries asset',
      feedBatch asset start count = (FeedResult.submitted chunks entries, asset') ∧
      entries.map (fun e => e.sampleIndex) =
        List.range'
          (findKeyframe samples (listMin (requestDecodeIndices asset start count)))
          (listMax (requestDecodeIndices asset start count) + 1 -
            findKeyframe samples (listMin (requestDecodeIndices asset start count))) ∧
      chunks.length = entries.length ∧
      (∀ e ∈ entries,
        e.frameIndex = (asset.decodeToFrame[e.sampleIndex]?).join ∧
        (e.deliver = true ↔
          ∃ f, e.frameIndex = some f ∧ start ≤ (f : Int) ∧ (f : Int) < start + count)) ∧
      asset'.currentFetchRange = some (start, start + count - 1)) ∧
    (((feedBatch demoAsset 45 10).1.entries).map (fun e => e.sampleIndex) =
        List.range' 30 25 ∧
      (((feedBatch demoAsset 45 10).1.entries).filter (fun e => e.deliver)).map
          (fun e => e.frameIndex) = (List.range' 45 10).map some) := by
  obtain ⟨hcpos, hlen, hall⟩ := hasFramesForRange_spec asset start count hcov
  have hstart : 0 ≤ start := by
    have hmem : start ∈ intRange start (start + count - 1) :=
      mem_intRange.mpr ⟨le_refl start, by omega⟩
    exact lookupFtd_nonneg _ _ (hall start hmem)
  have hreq : requestFrames asset start count = intRange start (start + count - 1) := by
    unfold requestFrames
    rw [min_eq_left hlen]
  have hfilter : (requestFrames asset start count).filter
      (fun f => (lookupFtd asset.frameToDecode f).isSome) =
      intRange start (start + count - 1) := by
    rw [hreq]
    exact List.filter_eq_self.mpr (by
      intro f hf
      exact hall f hf)
  have hidx_bound : ∀ d ∈ requestDecodeIndices asset start count, d < samples.length := by
    intro d hd
    unfold requestDecodeIndices at hd
    rw [hreq] at hd
    obtain ⟨fr, hfr, hlk⟩ := List.mem_filterMap.mp hd
    have hmem := lookupFtd_mem _ _ _ hlk
    rw [hftd] at hmem
    exact updatePresentationTimeline_ftd_lt samples _ _ d hmem
  have hne : requestDecodeIndices asset start count ≠ [] := by
    have hmem : start ∈ intRange start (start + count - 1) :=
      mem_intRange.mpr ⟨le_refl start, by omega⟩
    obtain ⟨d0, hd0⟩ := Option.isSome_iff_exists.mp (hall start hmem)
    apply List.ne_nil_of_mem (a := d0)
    unfold requestDecodeIndices
    rw [hreq]
    exact List.mem_filterMap.mpr ⟨start, hmem, hd0⟩
  have hneb : (requestDecodeIndices asset start count).isEmpty = false := by
    rw [List.isEmpty_eq_false]
    exact hne
  have hminmem := listMin_mem _ hne
  have hmaxmem := listMax_mem _ hne
  have hminlemax : listMin (requestDecodeIndices asset start count) ≤
      listMax (requestDecodeIndices asset start count) := listMax_ge _ _ hminmem
  have hmaxlt : listMax (requestDecodeIndices asset start count) < samples.length :=
    hidx_bound _ hmaxmem
  have hkf : findKeyframe samples (listMin (requestDecodeIndices asset start count)) ≤
      listMin (requestDecodeIndices asset start count) := findKeyframe_le samples _
  have hdEnd : min (listMax (requestDecodeIndices asset start count) + 1) samples.length =
      listMax (requestDecodeIndices asset start count) + 1 := min_eq_left (by omega)
  constructor
  · have hspec := submitLoop_spec samples asset.decodeToFrame asset.timescale asset.fps
      ((requestFrames asset start count).filter
        (fun f => (lookupFtd asset.frameToDecode f).isSome))
      (List.range'
        (findKeyframe samples (listMin (requestDecodeIndices asset start count)))
        (listMax (requestDecodeIndices asset start count) + 1 -
          findKeyframe samples (listMin (requestDecodeIndices asset start count))))
      asset.nextEntryId
      (by
        intro i hi
        rw [List.mem_range'] at hi
        obtain ⟨k, hk, rfl⟩ := hi
        omega)
    obtain ⟨hs1, hs2, hs3⟩ := hspec
    unfold feedBatch
    rw [hnf, hdec]
    have hlen0 : ¬(asset.frameToDecode.length = 0) := by omega
    simp only [hsam, Option.isNone_some, Option.getD_some, hcov, hneb, hlen0,
      not_true, Bool.false_eq_true, false_or, or_false, or_self, if_false, if_true,
      ite_false, ite_true, not_false_eq_true, decide_True, decide_False]
    simp only [hdEnd]
    refine ⟨_, _, _, rfl, ?_, ?_, ?_, ?_⟩
    · exact hs1
    · exact hs2
    · intro e he
      obtain ⟨hfi, hdel⟩ := hs3 e he
      refine ⟨hfi, ?_⟩
      rw [hdel, hfilter]
      constructor
      · rintro ⟨f, hf, hmem⟩
        rw [mem_intRange] at hmem
        exact ⟨f, hf, hmem.1, by omega⟩
      · rintro ⟨f, hf, h1, h2⟩
        exact ⟨f, hf, mem_intRange.mpr ⟨h1, by omega⟩⟩
    · simp only [min_eq_left hlen]
  · constructor
    · decide
    · decide

set_option maxRecDepth 100000 in
/-- C3 (counterexample): with an overlapping fetch range in flight, a
batch request whose range is fully covered by the timeline submits
nothing at all - the claim as stated, which promises submission for
every covered request, fails on this input. -/
theorem feed_batch_overlap_counterexample :
    hasFramesForRange demoBusyAsset 45 10 = true ∧
    feedBatch demoBusyAsset 45 10 = (FeedResult.overlapSuppressed, demoBusyAsset) := by
  constructor
  · decide
  · decide

set_option maxRecDepth 100000 in
theorem feed_batch_submission_selectivity_witness :
    (demoAsset.samples = some demoSamples ∧
      demoAsset.frameToDecode =
        (updatePresentationTimeline demoSamples demoAsset.timescale demoAsset.fps).frameToDecode ∧
      demoAsset.hasDecoder = true ∧
      demoAsset.currentFetchRange = none ∧
      hasFramesForRange demoAsset 45 10 = true) ∧
    ((∃ chunks entries asset',
      feedBatch demoAsset 45 10 = (FeedResult.submitted chunks entries, asset') ∧
      entries.map (fun e => e.sampleIndex) =
        List.range'
          (findKeyframe demoSamples (listMin (requestDecodeIndices demoAsset 45 10)))
          (listMax (requestDecodeIndices demoAsset 45 10) + 1 -
            findKeyframe demoSamples (listMin (requestDecodeIndices demoAsset 45 10))) ∧
      chunks.length = entries.length ∧
      (∀ e ∈ entries,
        e.frameIndex = (demoAsset.decodeToFrame[e.sampleIndex]?).join ∧
        (e.deliver = true ↔
          ∃ f, e.frameIndex = some f ∧ (45 : Int) ≤ (f : Int) ∧ (f : Int) < 45 + 10)) ∧
      asset'.currentFetchRange = some (45, 45 + 10 - 1)) ∧
    (((feedBatch demoAsset 45 10).1.entries).map (fun e => e.sampleIndex) =
        List.range' 30 25 ∧
      (((feedBatch demoAsset 45 10).1.entries).filter (fun e => e.deliver)).map
          (fun e => e.frameIndex) = (List.range' 45 10).map some)) :=
  ⟨⟨rfl, rfl, rfl, rfl, by decide⟩,
    feed_batch_submission_selectivity demoAsset demoSamples 45 10 rfl rfl rfl rfl
      (by decide)⟩

end CwpVideo
